import Mathlib

/-!
Shallow embedding of `src/shared_schema.ts` (constructionworkerapp):
the three Drizzle table declarations (`users`, `jobs`, `applications`),
their zod insert schemas (`insertUserSchema`, `insertJobSchema`,
`insertApplicationSchema`), and the storage-level insert semantics the
column declarations induce (defaults, NOT NULL, the UNIQUE constraint
on `users.username`).
-/

namespace SharedSchema

/-- A scalar JSON-like value. `date` carries milliseconds since the Unix
epoch, mirroring a JS `Date`. -/
inductive Prim where
  | str (s : String)
  | num (n : Int)
  | bool (b : Bool)
  | date (ms : Int)
  | null
deriving DecidableEq, Repr

/-- An untyped input value, as received by a zod schema: a scalar or an
array of scalars (the schemas in this file only validate flat arrays of
strings, so array elements are modelled as scalars). -/
inductive Value where
  | prim (p : Prim)
  | arr (vs : List Prim)
deriving DecidableEq, Repr

def Value.str (s : String) : Value := .prim (.str s)
def Value.num (n : Int) : Value := .prim (.num n)
def Value.bool (b : Bool) : Value := .prim (.bool b)
def Value.date (ms : Int) : Value := .prim (.date ms)
def Value.null : Value := .prim .null

/-- An untyped key/value record submitted by a client (a JS object). -/
abbrev Input := List (String × Value)

/-- JS-object field access: the value at the first binding of key `k`,
or `none` when the key is absent (`undefined`). -/
def lookupField (i : Input) (k : String) : Option Value :=
  (i.find? (fun p => p.1 == k)).map (fun p => p.2)

/-! ### Date coercion (`z.coerce.date()`)

`z.coerce.date()` runs `new Date(input)` and fails when the result is an
invalid date. String inputs are modelled for ISO `YYYY-MM-DD` calendar
dates, converted to epoch milliseconds at UTC midnight; numbers are taken
as epoch milliseconds; an existing date passes through; `null` and
booleans follow the JS `Number` conversion (`new Date(null)` is epoch 0). -/

def isLeapYear (y : Int) : Bool :=
  (y % 4 == 0 && y % 100 != 0) || y % 400 == 0

def daysInMonth (y : Int) (m : Nat) : Nat :=
  if m = 2 then (if isLeapYear y then 29 else 28)
  else if m = 4 ∨ m = 6 ∨ m = 9 ∨ m = 11 then 30 else 31

/-- Days from the Unix epoch to civil date `y-m-d` (proleptic Gregorian). -/
def daysFromCivil (y : Int) (m d : Nat) : Int :=
  let yy : Int := if m ≤ 2 then y - 1 else y
  let era : Int := yy / 400
  let yoe : Int := yy - era * 400
  let mp : Int := if m > 2 then (m : Int) - 3 else (m : Int) + 9
  let doy : Int := (153 * mp + 2) / 5 + (d : Int) - 1
  let doe : Int := yoe * 365 + yoe / 4 - yoe / 100 + doy
  era * 146097 + doe - 719468

def digitsToNat (cs : List Char) : Nat :=
  cs.foldl (fun a c => a * 10 + (c.toNat - 48)) 0

/-- Parse an ISO `YYYY-MM-DD` date string to epoch milliseconds at UTC
midnight; `none` when the string is not a valid calendar date. -/
def parseDateString (s : String) : Option Int :=
  match s.toList with
  | [y1, y2, y3, y4, h1, m1, m2, h2, d1, d2] =>
    if h1 = '-' ∧ h2 = '-' ∧ ([y1, y2, y3, y4, m1, m2, d1, d2].all Char.isDigit) then
      let y : Int := (digitsToNat [y1, y2, y3, y4] : Int)
      let m : Nat := digitsToNat [m1, m2]
      let d : Nat := digitsToNat [d1, d2]
      if 1 ≤ m ∧ m ≤ 12 ∧ 1 ≤ d ∧ d ≤ daysInMonth y m then
        some (86400000 * daysFromCivil y m d)
      else none
    else none
  | _ => none

/-- `new Date(v)` as used by `z.coerce.date()`: `none` is an invalid date. -/
def coerceToDate : Value → Option Int
  | .prim (.date ms) => some ms
  | .prim (.num n) => some n
  | .prim (.str s) => parseDateString s
  | .prim (.bool b) => some (if b then 1 else 0)
  | .prim .null => some 0
  | .arr _ => none

/-! ### Field schemas

The per-field zod validators occurring in the three insert schemas.
`createInsertSchema` maps a `.notNull()` text/integer column to a required
`z.string()` / `z.number()` and a nullable column to
`z.string().nullable().optional()` / `z.number().nullable().optional()`;
the `.extend` overrides are `z.array(z.string()).default([])` (also with a
redundant `.optional()` for `skills`), `z.coerce.date()`, and
`z.string().optional()` for `note`. -/
inductive FieldSchema where
  | str
  | strNullOpt
  | strOpt
  | num
  | numNullOpt
  | arrStrDefault
  | coerceDate
deriving DecidableEq, Repr

def isStr : Prim → Bool
  | .str _ => true
  | _ => false

/-- Run one field validator on the field's looked-up value (`none` is a
missing key / `undefined`). `.ok none` means the field is absent from the
output (an absent optional field); the error string is the zod issue kind. -/
def parseField : FieldSchema → Option Value → Except String (Option Value)
  | .str, none => .error "required"
  | .str, some (.prim (.str s)) => .ok (some (.str s))
  | .str, some _ => .error "invalid_type"
  | .strNullOpt, none => .ok none
  | .strNullOpt, some (.prim (.str s)) => .ok (some (.str s))
  | .strNullOpt, some (.prim .null) => .ok (some .null)
  | .strNullOpt, some _ => .error "invalid_type"
  | .strOpt, none => .ok none
  | .strOpt, some (.prim (.str s)) => .ok (some (.str s))
  | .strOpt, some _ => .error "invalid_type"
  | .num, none => .error "required"
  | .num, some (.prim (.num n)) => .ok (some (.num n))
  | .num, some _ => .error "invalid_type"
  | .numNullOpt, none => .ok none
  | .numNullOpt, some (.prim (.num n)) => .ok (some (.num n))
  | .numNullOpt, some (.prim .null) => .ok (some .null)
  | .numNullOpt, some _ => .error "invalid_type"
  | .arrStrDefault, none => .ok (some (.arr []))
  | .arrStrDefault, some (.arr vs) =>
      if vs.all isStr then .ok (some (.arr vs)) else .error "invalid_type"
  | .arrStrDefault, some _ => .error "invalid_type"
  | .coerceDate, none => .error "invalid_date"
  | .coerceDate, some v =>
      match coerceToDate v with
      | some ms => .ok (some (.date ms))
      | none => .error "invalid_date"

/-- zod object parsing over a field list: every field is checked, all
failures are collected (zod never stops at the first issue), keys not in
the field list are stripped, and on success the output holds exactly the
present accepted fields in schema order. -/
def parseObject : List (String × FieldSchema) → Input →
    Except (List (String × String)) (List (String × Value))
  | [], _ => .ok []
  | (k, fs) :: rest, i =>
    match parseField fs (lookupField i k), parseObject rest i with
    | .error e, .error es => .error ((k, e) :: es)
    | .error e, .ok _ => .error [(k, e)]
    | .ok _, .error es => .error es
    | .ok none, .ok r => .ok r
    | .ok (some v), .ok r => .ok ((k, v) :: r)

/-! ### The three insert schemas (field lists as picked and extended in
`src/shared_schema.ts`) -/

/-- `insertUserSchema = createInsertSchema(users).pick({...}).extend({
skills: z.array(z.string()).optional().default([]) })`. -/
def insertUserSchema : List (String × FieldSchema) :=
  [("username", .str), ("password", .str), ("role", .str),
   ("fullName", .str), ("email", .str), ("phone", .strNullOpt),
   ("companyName", .strNullOpt), ("companyDescription", .strNullOpt),
   ("companyLogo", .strNullOpt), ("bio", .strNullOpt),
   ("skills", .arrStrDefault), ("hourlyRate", .numNullOpt),
   ("yearsExperience", .numNullOpt)]

/-- `insertJobSchema = createInsertSchema(jobs).pick({...}).extend({
startDate: z.coerce.date(), endDate: z.coerce.date(),
requirements: z.array(z.string()).default([]) })`.
Note: `employerId` is not in the `.pick` list. -/
def insertJobSchema : List (String × FieldSchema) :=
  [("title", .str), ("description", .str), ("location", .str),
   ("requirements", .arrStrDefault), ("startDate", .coerceDate),
   ("endDate", .coerceDate), ("shiftStartTime", .str),
   ("shiftEndTime", .str), ("shiftHours", .num), ("rate", .num)]

/-- `insertApplicationSchema = createInsertSchema(applications).pick({
jobId, workerId, note }).extend({ note: z.string().optional() })`. -/
def insertApplicationSchema : List (String × FieldSchema) :=
  [("jobId", .num), ("workerId", .num), ("note", .strOpt)]

/-- `insertUserSchema.parse` on an untyped input. -/
def parseUser (i : Input) : Except (List (String × String)) (List (String × Value)) :=
  parseObject insertUserSchema i

/-- `insertJobSchema.parse` on an untyped input. -/
def parseJob (i : Input) : Except (List (String × String)) (List (String × Value)) :=
  parseObject insertJobSchema i

/-- `insertApplicationSchema.parse` on an untyped input. -/
def parseApplication (i : Input) : Except (List (String × String)) (List (String × Value)) :=
  parseObject insertApplicationSchema i

/-! ### Storage model (the `pgTable` declarations)

Each column records its name, NOT NULL flag, UNIQUE flag and default.
`serial` is an auto-assigned integer primary key; `now` is `defaultNow()`. -/

inductive ColDefault where
  | noDefault
  | val (v : Value)
  | now
  | serial
deriving DecidableEq, Repr

structure Column where
  name : String
  notNull : Bool
  uniq : Bool
  dflt : ColDefault
deriving DecidableEq, Repr

/-- `pgTable("users", {...})` from `src/shared_schema.ts` lines 10-26. -/
def usersTable : List Column :=
  [⟨"id", true, true, .serial⟩,
   ⟨"username", true, true, .noDefault⟩,
   ⟨"password", true, false, .noDefault⟩,
   ⟨"role", true, false, .noDefault⟩,
   ⟨"fullName", true, false, .noDefault⟩,
   ⟨"email", true, false, .noDefault⟩,
   ⟨"phone", false, false, .noDefault⟩,
   ⟨"companyName", false, false, .noDefault⟩,
   ⟨"companyDescription", false, false, .noDefault⟩,
   ⟨"companyLogo", false, false, .noDefault⟩,
   ⟨"bio", false, false, .noDefault⟩,
   ⟨"skills", false, false, .noDefault⟩,
   ⟨"hourlyRate", false, false, .noDefault⟩,
   ⟨"yearsExperience", false, false, .noDefault⟩,
   ⟨"verified", false, false, .val (.bool false)⟩]

/-- `pgTable("jobs", {...})` from `src/shared_schema.ts` lines 32-46;
`employerId` references `users.id`. -/
def jobsTable : List Column :=
  [⟨"id", true, true, .serial⟩,
   ⟨"title", true, false, .noDefault⟩,
   ⟨"description", true, false, .noDefault⟩,
   ⟨"location", true, false, .noDefault⟩,
   ⟨"requirements", false, false, .noDefault⟩,
   ⟨"startDate", true, false, .noDefault⟩,
   ⟨"endDate", true, false, .noDefault⟩,
   ⟨"shiftStartTime", true, false, .noDefault⟩,
   ⟨"shiftEndTime", true, false, .noDefault⟩,
   ⟨"shiftHours", true, false, .noDefault⟩,
   ⟨"rate", true, false, .noDefault⟩,
   ⟨"employerId", true, false, .noDefault⟩,
   ⟨"status", true, false, .val (.str "open")⟩]

/-- `pgTable("applications", {...})` from `src/shared_schema.ts` lines
52-59; `jobId` references `jobs.id`, `workerId` references `users.id`. -/
def applicationsTable : List Column :=
  [⟨"id", true, true, .serial⟩,
   ⟨"jobId", true, false, .noDefault⟩,
   ⟨"workerId", true, false, .noDefault⟩,
   ⟨"status", true, false, .val (.str "pending")⟩,
   ⟨"note", false, false, .noDefault⟩,
   ⟨"createdAt", true, false, .now⟩]

def defaultFor (nextId nowMs : Int) : ColDefault → Value
  | .noDefault => .null
  | .val v => v
  | .now => .date nowMs
  | .serial => .num nextId

/-- The value a column receives on INSERT: a supplied value (including an
explicit NULL) wins; an omitted column falls back to its default, or NULL
when it has none. -/
def columnValue (nextId nowMs : Int) (r : Input) (c : Column) : Value :=
  match lookupField r c.name with
  | some v => v
  | none => defaultFor nextId nowMs c.dflt

def Value.isNull : Value → Bool
  | .prim .null => true
  | _ => false

/-- SQL INSERT of a record into a table: every column takes its supplied
value or default, and the insert fails when a NOT NULL column would end
up NULL. -/
def insertRow (tbl : List Column) (nextId nowMs : Int) (r : Input) :
    Except String (List (String × Value)) :=
  if tbl.any (fun c => c.notNull && (columnValue nextId nowMs r c).isNull) then
    .error "not_null_violation"
  else
    .ok (tbl.map (fun c => (c.name, columnValue nextId nowMs r c)))

/-- The users table contents plus the next serial id. -/
structure UsersStore where
  rows : List (List (String × Value))
  nextId : Int
deriving DecidableEq, Repr

/-- Modelled from the spec: enforcement of the UNIQUE constraint declared
on `users.username` (`text("username").notNull().unique()`) lives in the
external storage engine; inserting a row whose `username` value equals
that of an existing row fails with a uniqueness error and changes
nothing. -/
def insertUser (nowMs : Int) (s : UsersStore) (r : Input) :
    Except String UsersStore :=
  match insertRow usersTable s.nextId nowMs r with
  | .error e => .error e
  | .ok row =>
    if s.rows.any (fun r0 => lookupField r0 "username" == lookupField row "username") then
      .error "unique_violation"
    else
      .ok ⟨s.rows ++ [row], s.nextId + 1⟩

/-- Users-store states reachable from the empty store by successful
inserts (this layer never deletes or mutates users; reads do not change
state). -/
inductive ReachableUsers : UsersStore → Prop where
  | init : ReachableUsers ⟨[], 1⟩
  | step (nowMs : Int) (r : Input) (s s' : UsersStore) :
      ReachableUsers s → insertUser nowMs s r = .ok s' → ReachableUsers s'

/-- No two stored user rows carry the same `username` value. -/
def DistinctUsernames (s : UsersStore) : Prop :=
  s.rows.Pairwise (fun a b => lookupField a "username" ≠ lookupField b "username")

/-! ### General lemmas about object parsing -/

theorem lookupField_cons_self (k : String) (v : Value) (i : Input) :
    lookupField ((k, v) :: i) k = some v := by
  simp [lookupField, List.find?_cons]

theorem lookupField_cons_ne (k0 : String) (v : Value) (i : Input) (k : String)
    (h : k0 ≠ k) : lookupField ((k0, v) :: i) k = lookupField i k := by
  have hb : (k0 == k) = false := beq_eq_false_iff_ne.mpr h
  simp [lookupField, List.find?_cons, hb]

theorem lookupField_eq_none (r : Input) (k : String)
    (h : ∀ p ∈ r, p.1 ≠ k) : lookupField r k = none := by
  have : r.find? (fun p => p.1 == k) = none :=
    List.find?_eq_none.mpr (fun p hp => by simpa using h p hp)
  simp [lookupField, this]

/-- Parsing consults the input only at the schema's keys. -/
theorem parseObject_congr (sch : List (String × FieldSchema)) (i1 i2 : Input)
    (h : ∀ p ∈ sch, lookupField i1 p.1 = lookupField i2 p.1) :
    parseObject sch i1 = parseObject sch i2 := by
  induction sch with
  | nil => rfl
  | cons hd tl ih =>
    obtain ⟨k, fs⟩ := hd
    have h1 : lookupField i1 k = lookupField i2 k := h (k, fs) (by simp)
    have h2 := ih (fun p hp => h p (List.mem_cons_of_mem _ hp))
    simp only [parseObject, h1, h2]

/-- Every key of a successful output is a schema key (unknown input keys
are stripped, server-assigned fields can never leak through). -/
theorem parseObject_ok_keys (sch : List (String × FieldSchema)) (i : Input)
    (r : List (String × Value)) (h : parseObject sch i = .ok r) :
    ∀ p ∈ r, p.1 ∈ sch.map Prod.fst := by
  induction sch generalizing r with
  | nil =>
    simp only [parseObject, Except.ok.injEq] at h
    subst h
    intro p hp
    cases hp
  | cons hd tl ih =>
    obtain ⟨k, fs⟩ := hd
    simp only [parseObject] at h
    cases hpf : parseField fs (lookupField i k) <;> rw [hpf] at h <;>
      cases hrec : parseObject tl i <;> rw [hrec] at h
    · simp at h
    · simp at h
    · simp at h
    · rename_i w r0
      cases w with
      | none =>
        simp only [Except.ok.injEq] at h
        subst h
        intro p hp
        exact List.mem_cons_of_mem _ (ih r0 hrec p hp)
      | some v =>
        simp only [Except.ok.injEq] at h
        subst h
        intro p hp
        rcases List.mem_cons.mp hp with rfl | hp0
        · simp
        · exact List.mem_cons_of_mem _ (ih r0 hrec p hp0)

/-- On a successful parse every schema field's validator succeeded. -/
theorem parseObject_ok_field (sch : List (String × FieldSchema)) (i : Input)
    (r : List (String × Value)) (h : parseObject sch i = .ok r) :
    ∀ p ∈ sch, ∃ w, parseField p.2 (lookupField i p.1) = .ok w := by
  induction sch generalizing r with
  | nil =>
    intro p hp
    cases hp
  | cons hd tl ih =>
    obtain ⟨k, fs⟩ := hd
    simp only [parseObject] at h
    cases hpf : parseField fs (lookupField i k) <;> rw [hpf] at h <;>
      cases hrec : parseObject tl i <;> rw [hrec] at h
    · simp at h
    · simp at h
    · simp at h
    · rename_i w r0
      intro p hp
      rcases List.mem_cons.mp hp with rfl | hp0
      · exact ⟨w, hpf⟩
      · exact ih r0 hrec p hp0

/-- The error entries a full field-by-field check would produce. -/
def fieldErrors (sch : List (String × FieldSchema)) (i : Input) :
    List (String × String) :=
  sch.filterMap (fun p =>
    match parseField p.2 (lookupField i p.1) with
    | .error e => some (p.1, e)
    | .ok _ => none)

theorem fieldErrors_eq_nil (sch : List (String × FieldSchema)) (i : Input)
    (r : List (String × Value)) (h : parseObject sch i = .ok r) :
    fieldErrors sch i = [] := by
  rw [fieldErrors, List.filterMap_eq_nil_iff]
  intro p hp
  obtain ⟨w, hw⟩ := parseObject_ok_field sch i r h p hp
  rw [hw]

/-- A failed parse reports exactly the per-field failures of every
schema field: error collection is exhaustive, never fail-fast. -/
theorem parseObject_error_eq (sch : List (String × FieldSchema)) (i : Input)
    (es : List (String × String)) (h : parseObject sch i = .error es) :
    es = fieldErrors sch i := by
  induction sch generalizing es with
  | nil => simp [parseObject] at h
  | cons hd tl ih =>
    obtain ⟨k, fs⟩ := hd
    simp only [parseObject] at h
    cases hpf : parseField fs (lookupField i k) <;> rw [hpf] at h <;>
      cases hrec : parseObject tl i <;> rw [hrec] at h
    · rename_i e es0
      simp only [Except.error.injEq] at h
      subst h
      simp only [fieldErrors, List.filterMap_cons, hpf]
      rw [← fieldErrors, ← ih es0 hrec]
    · rename_i e r0
      simp only [Except.error.injEq] at h
      subst h
      simp only [fieldErrors, List.filterMap_cons, hpf]
      rw [← fieldErrors, fieldErrors_eq_nil tl i r0 hrec]
    · rename_i w es0
      simp only [Except.error.injEq] at h
      subst h
      simp only [fieldErrors, List.filterMap_cons, hpf]
      rw [← fieldErrors, ← ih es0 hrec]
    · rename_i w r0
      cases w <;> simp at h

/-- A failing field forces the whole parse to fail, and its entry is in
the reported error list. -/
theorem parseObject_error_mem (sch : List (String × FieldSchema)) (i : Input)
    (k : String) (fs : FieldSchema) (e : String) (hmem : (k, fs) ∈ sch)
    (hf : parseField fs (lookupField i k) = .error e) :
    ∃ es, parseObject sch i = .error es ∧ (k, e) ∈ es := by
  cases hp : parseObject sch i with
  | ok r =>
    obtain ⟨w, hw⟩ := parseObject_ok_field sch i r hp (k, fs) hmem
    rw [hf] at hw
    cases hw
  | error es =>
    refine ⟨es, rfl, ?_⟩
    rw [parseObject_error_eq sch i es hp, fieldErrors]
    exact List.mem_filterMap.mpr ⟨(k, fs), hmem, by rw [hf]⟩

/-- On a successful parse, a field whose validator produced a value is
present in the output with that value (schema keys are distinct). -/
theorem parseObject_ok_lookup (sch : List (String × FieldSchema)) (i : Input)
    (r : List (String × Value)) (k : String) (fs : FieldSchema) (v : Value)
    (hnd : (sch.map Prod.fst).Nodup) (h : parseObject sch i = .ok r)
    (hmem : (k, fs) ∈ sch) (hf : parseField fs (lookupField i k) = .ok (some v)) :
    lookupField r k = some v := by
  induction sch generalizing r with
  | nil => cases hmem
  | cons hd tl ih =>
    obtain ⟨k0, fs0⟩ := hd
    simp only [List.map_cons, List.nodup_cons] at hnd
    obtain ⟨hk0, hndtl⟩ := hnd
    simp only [parseObject] at h
    rcases List.mem_cons.mp hmem with heq | htl
    · rw [Prod.mk.injEq] at heq
      obtain ⟨h1, h2⟩ := heq
      subst h1
      subst h2
      rw [hf] at h
      cases hrec : parseObject tl i <;> rw [hrec] at h
      · simp at h
      · rename_i r0
        simp only [Except.ok.injEq] at h
        subst h
        exact lookupField_cons_self k v r0
    · have hk : k0 ≠ k := by
        intro hh
        exact hk0 (hh ▸ List.mem_map.mpr ⟨(k, fs), htl, rfl⟩)
      cases hpf : parseField fs0 (lookupField i k0) <;> rw [hpf] at h <;>
        cases hrec : parseObject tl i <;> rw [hrec] at h
      · simp at h
      · simp at h
      · simp at h
      · rename_i w r0
        cases w with
        | none =>
          simp only [Except.ok.injEq] at h
          subst h
          exact ih r0 hndtl hrec htl
        | some v0 =>
          simp only [Except.ok.injEq] at h
          subst h
          rw [lookupField_cons_ne k0 v0 r0 k hk]
          exact ih r0 hndtl hrec htl

/-! ### Shared concrete records -/

/-- The normalized-output projection of a parse result: a field of the
successful output, `none` on failure or when absent. -/
def okLookup :
    Except (List (String × String)) (List (String × Value)) → String → Option Value
  | .ok r, k => lookupField r k
  | .error _, _ => none

/-- The reported validation-error entries, `[]` on success. -/
def errList :
    Except (List (String × String)) (List (String × Value)) → List (String × String)
  | .error es => es
  | .ok _ => []

/-- A valid User creation input carrying only the required fields. -/
def userOkInput : Input :=
  [("username", .str "alice"), ("password", .str "x"), ("role", .str "worker"),
   ("fullName", .str "Alice A"), ("email", .str "a@x.com")]

def userOkNormalized : List (String × Value) :=
  [("username", .str "alice"), ("password", .str "x"), ("role", .str "worker"),
   ("fullName", .str "Alice A"), ("email", .str "a@x.com"), ("skills", .arr [])]

/-- A Job creation input with every picked field valid and `employerId`
and `requirements` absent. -/
def jobOkInput : Input :=
  [("title", .str "Warehouse shift"), ("description", .str "d"),
   ("location", .str "Austin"), ("startDate", .str "2024-01-01"),
   ("endDate", .str "2024-01-02"), ("shiftStartTime", .str "08:00"),
   ("shiftEndTime", .str "16:00"), ("shiftHours", .num 8), ("rate", .num 20)]

def jobOkNormalized : List (String × Value) :=
  [("title", .str "Warehouse shift"), ("description", .str "d"),
   ("location", .str "Austin"), ("requirements", .arr []),
   ("startDate", .date 1704067200000), ("endDate", .date 1704153600000),
   ("shiftStartTime", .str "08:00"), ("shiftEndTime", .str "16:00"),
   ("shiftHours", .num 8), ("rate", .num 20)]

example : parseUser userOkInput = .ok userOkNormalized := rfl
example : parseJob jobOkInput = .ok jobOkNormalized := rfl

/-! ### Claim C1 -/

/-- **C1** is false on the code: `insertJobSchema`'s `.pick` list omits
`employerId`, so a Job creation input with every picked field valid but
no `employerId` is accepted, not rejected. -/
theorem c1_counterexample :
    (parseJob jobOkInput).isOk = true ∧
    lookupField jobOkInput "employerId" = none :=
  ⟨rfl, rfl⟩

/-- **C1** (amended): the Job Creation Validator does not accept
`employerId` at all — a supplied `employerId` has no effect on the
result, the normalized output never contains `employerId`, and an input
missing `employerId` is accepted when its picked fields are valid. -/
theorem c1_employerId_not_accepted :
    (∀ (i : Input) (v : Value),
        parseJob (("employerId", v) :: i) = parseJob i) ∧
    (∀ i : Input, okLookup (parseJob i) "employerId" = none) ∧
    (parseJob jobOkInput).isOk = true := by
  refine ⟨fun i v => ?_, fun i => ?_, rfl⟩
  · apply parseObject_congr
    intro p hp
    apply lookupField_cons_ne
    fin_cases hp <;> decide
  · cases h : parseJob i with
    | error es => rfl
    | ok r =>
      show lookupField r "employerId" = none
      apply lookupField_eq_none
      intro p hp heq
      have hmem := parseObject_ok_keys insertJobSchema i r h p hp
      rw [heq] at hmem
      simp [insertJobSchema] at hmem

/-! ### Claim C2 -/

/-- The fields assigned by the server, never by the client. -/
def serverAssigned : List String := ["id", "verified", "status", "createdAt"]

/-- **C2**: for each entity kind, two creation inputs that agree outside
the server-assigned fields `id`, `verified`, `status`, `createdAt` parse
to the same result, and a successful output never contains any of those
fields. -/
theorem c2_server_assigned_no_effect :
    (∀ i1 i2 : Input,
      (∀ k, k ∉ serverAssigned → lookupField i1 k = lookupField i2 k) →
      parseUser i1 = parseUser i2 ∧ parseJob i1 = parseJob i2 ∧
        parseApplication i1 = parseApplication i2) ∧
    (∀ (i : Input) (r : List (String × Value)),
      (parseUser i = .ok r ∨ parseJob i = .ok r ∨ parseApplication i = .ok r) →
      ∀ k ∈ serverAssigned, lookupField r k = none) := by
  constructor
  · intro i1 i2 hagree
    refine ⟨?_, ?_, ?_⟩ <;>
      · apply parseObject_congr
        intro p hp
        apply hagree
        fin_cases hp <;> decide
  · intro i r hok k hk
    apply lookupField_eq_none
    intro p hp heq
    rcases hok with h | h | h
    · have hmem := parseObject_ok_keys insertUserSchema i r h p hp
      rw [heq] at hmem
      exact (by decide :
        ∀ x ∈ List.map Prod.fst insertUserSchema, x ∉ serverAssigned) k hmem hk
    · have hmem := parseObject_ok_keys insertJobSchema i r h p hp
      rw [heq] at hmem
      exact (by decide :
        ∀ x ∈ List.map Prod.fst insertJobSchema, x ∉ serverAssigned) k hmem hk
    · have hmem := parseObject_ok_keys insertApplicationSchema i r h p hp
      rw [heq] at hmem
      exact (by decide :
        ∀ x ∈ List.map Prod.fst insertApplicationSchema, x ∉ serverAssigned) k hmem hk

/-- An input like `userOkInput` but with client-supplied values for every
server-assigned field. -/
def userJunkInput : Input :=
  ("id", Value.num 99) :: ("verified", Value.bool true) ::
    ("status", Value.str "x") :: ("createdAt", Value.num 7) :: userOkInput

/-- Witness for **C2** at concrete inputs. -/
theorem c2_witness :
    parseUser userJunkInput = parseUser userOkInput ∧
    lookupField userOkNormalized "verified" = none := by
  constructor
  · refine (c2_server_assigned_no_effect.1 userJunkInput userOkInput ?_).1
    intro k hk
    simp only [serverAssigned, List.mem_cons, List.not_mem_nil, or_false, not_or] at hk
    obtain ⟨h1, h2, h3, h4⟩ := hk
    simp only [userJunkInput,
      lookupField_cons_ne _ _ _ _ (Ne.symm h1),
      lookupField_cons_ne _ _ _ _ (Ne.symm h2),
      lookupField_cons_ne _ _ _ _ (Ne.symm h3),
      lookupField_cons_ne _ _ _ _ (Ne.symm h4)]
  · exact c2_server_assigned_no_effect.2 userOkInput userOkNormalized
      (Or.inl rfl) "verified" (by decide)

/-! ### Claim C3 -/

/-- A User creation input whose `role` is neither `"worker"` nor
`"employer"`. -/
def userAdminInput : Input :=
  [("username", .str "alice"), ("password", .str "x"), ("role", .str "admin"),
   ("fullName", .str "Alice A"), ("email", .str "a@x.com")]

def userAdminNormalized : List (String × Value) :=
  [("username", .str "alice"), ("password", .str "x"), ("role", .str "admin"),
   ("fullName", .str "Alice A"), ("email", .str "a@x.com"), ("skills", .arr [])]

/-- **C3** is false on the code: `users.role` is a plain `text` column, so
`createInsertSchema` validates it as `z.string()` with no enum check, and
an input with `role = "admin"` passes the Creation Validator. -/
theorem c3_counterexample :
    (parseUser userAdminInput).isOk = true ∧
    lookupField userAdminInput "role" = some (.str "admin") :=
  ⟨rfl, rfl⟩

def userNoRole : Input :=
  [("username", .str "alice"), ("password", .str "x"),
   ("fullName", .str "Alice A"), ("email", .str "a@x.com")]

/-- **C3** (amended): `role` is required and must be a string, and is
echoed unchanged into the normalized output — but any string is accepted,
with no restriction to `"worker"`/`"employer"`. -/
theorem c3_role_any_string :
    (∀ i : Input, lookupField i "role" = none →
        (parseUser i).isOk = false ∧ ("role", "required") ∈ errList (parseUser i)) ∧
    (∀ (i : Input) (r : List (String × Value)), parseUser i = .ok r →
        lookupField r "role" = lookupField i "role") ∧
    (∀ s : String,
        (parseUser (userNoRole ++ [("role", Value.str s)])).isOk = true) := by
  refine ⟨fun i hrole => ?_, fun i r hok => ?_, fun s => rfl⟩
  · obtain ⟨es, hp, hm⟩ :=
      parseObject_error_mem insertUserSchema i "role" .str "required"
        (by decide) (by rw [hrole]; rfl)
    rw [parseUser, hp]
    exact ⟨rfl, hm⟩
  · obtain ⟨w, hw⟩ :=
      parseObject_ok_field insertUserSchema i r hok ("role", .str) (by decide)
    cases hx : lookupField i "role" with
    | none => rw [hx] at hw; simp [parseField] at hw
    | some v =>
      rw [hx] at hw
      cases v with
      | prim p =>
        cases p with
        | str s =>
          exact parseObject_ok_lookup insertUserSchema i r "role" .str (.str s)
            (by decide) hok (by decide) (by rw [hx]; rfl)
        | num n => simp [parseField] at hw
        | bool b => simp [parseField] at hw
        | date ms => simp [parseField] at hw
        | null => simp [parseField] at hw
      | arr vs => simp [parseField] at hw

/-- Witness for the amended **C3** at concrete inputs. -/
theorem c3_witness :
    ((parseUser userNoRole).isOk = false ∧
      ("role", "required") ∈ errList (parseUser userNoRole)) ∧
    lookupField userAdminNormalized "role" = lookupField userAdminInput "role" ∧
    (parseUser (userNoRole ++ [("role", Value.str "worker")])).isOk = true :=
  ⟨c3_role_any_string.1 userNoRole rfl,
   c3_role_any_string.2.1 userAdminInput userAdminNormalized rfl,
   c3_role_any_string.2.2 "worker"⟩

/-! ### Claim C4 -/

/-- **C4**: validation errors are exhaustive, never fail-fast — for each
entity kind, every field whose validator fails on the input contributes
its own entry to the reported error list (so two independently failing
fields both appear). -/
theorem c4_errors_exhaustive :
    (∀ (i : Input) (k : String) (fs : FieldSchema) (e : String),
      (k, fs) ∈ insertUserSchema → parseField fs (lookupField i k) = .error e →
      (parseUser i).isOk = false ∧ (k, e) ∈ errList (parseUser i)) ∧
    (∀ (i : Input) (k : String) (fs : FieldSchema) (e : String),
      (k, fs) ∈ insertJobSchema → parseField fs (lookupField i k) = .error e →
      (parseJob i).isOk = false ∧ (k, e) ∈ errList (parseJob i)) ∧
    (∀ (i : Input) (k : String) (fs : FieldSchema) (e : String),
      (k, fs) ∈ insertApplicationSchema → parseField fs (lookupField i k) = .error e →
      (parseApplication i).isOk = false ∧ (k, e) ∈ errList (parseApplication i)) := by
  refine ⟨fun i k fs e hmem hf => ?_, fun i k fs e hmem hf => ?_,
    fun i k fs e hmem hf => ?_⟩ <;>
  · obtain ⟨es, hp, hm⟩ := parseObject_error_mem _ i k fs e hmem hf
    first
      | rw [parseUser, hp]; exact ⟨rfl, hm⟩
      | rw [parseJob, hp]; exact ⟨rfl, hm⟩
      | rw [parseApplication, hp]; exact ⟨rfl, hm⟩

/-- Witness for **C4**: the empty User input fails on two independent
fields and both appear in the error list. -/
theorem c4_witness :
    (parseUser []).isOk = false ∧
    ("username", "required") ∈ errList (parseUser []) ∧
    ("password", "required") ∈ errList (parseUser []) :=
  ⟨(c4_errors_exhaustive.1 [] "username" .str "required" (by decide) rfl).1,
   (c4_errors_exhaustive.1 [] "username" .str "required" (by decide) rfl).2,
   (c4_errors_exhaustive.1 [] "password" .str "required" (by decide) rfl).2⟩

/-! ### Claim C5 -/

/-- **C5**: `startDate`/`endDate` strings are coerced to date values in
the normalized Job output, and a string that fails to parse as a date is
rejected with an `invalid_date` entry for that field. -/
theorem c5_dates_coerced :
    (∀ (i : Input) (s : String), lookupField i "startDate" = some (.str s) →
      parseDateString s = none →
      (parseJob i).isOk = false ∧ ("startDate", "invalid_date") ∈ errList (parseJob i)) ∧
    (∀ (i : Input) (s : String), lookupField i "endDate" = some (.str s) →
      parseDateString s = none →
      (parseJob i).isOk = false ∧ ("endDate", "invalid_date") ∈ errList (parseJob i)) ∧
    (∀ (i : Input) (r : List (String × Value)) (s : String) (ms : Int),
      parseJob i = .ok r → lookupField i "startDate" = some (.str s) →
      parseDateString s = some ms → lookupField r "startDate" = some (.date ms)) ∧
    (∀ (i : Input) (r : List (String × Value)) (s : String) (ms : Int),
      parseJob i = .ok r → lookupField i "endDate" = some (.str s) →
      parseDateString s = some ms → lookupField r "endDate" = some (.date ms)) := by
  refine ⟨fun i s hs hn => ?_, fun i s hs hn => ?_,
    fun i r s ms hok hs hms => ?_, fun i r s ms hok hs hms => ?_⟩
  · obtain ⟨es, hp, hm⟩ :=
      parseObject_error_mem insertJobSchema i "startDate" .coerceDate "invalid_date"
        (by decide) (by rw [hs]; simp [parseField, coerceToDate, Value.str, hn])
    rw [parseJob, hp]
    exact ⟨rfl, hm⟩
  · obtain ⟨es, hp, hm⟩ :=
      parseObject_error_mem insertJobSchema i "endDate" .coerceDate "invalid_date"
        (by decide) (by rw [hs]; simp [parseField, coerceToDate, Value.str, hn])
    rw [parseJob, hp]
    exact ⟨rfl, hm⟩
  · exact parseObject_ok_lookup insertJobSchema i r "startDate" .coerceDate (.date ms)
      (by decide) hok (by decide)
      (by rw [hs]; simp [parseField, coerceToDate, Value.str, Value.date, hms])
  · exact parseObject_ok_lookup insertJobSchema i r "endDate" .coerceDate (.date ms)
      (by decide) hok (by decide)
      (by rw [hs]; simp [parseField, coerceToDate, Value.str, Value.date, hms])

/-- A Job input whose date fields are not parseable date strings. -/
def jobBadDatesInput : Input :=
  [("title", .str "Warehouse shift"), ("description", .str "d"),
   ("location", .str "Austin"), ("startDate", .str "notadate"),
   ("endDate", .str "2024-13-40"), ("shiftStartTime", .str "08:00"),
   ("shiftEndTime", .str "16:00"), ("shiftHours", .num 8), ("rate", .num 20)]

/-- Witness for **C5** at concrete inputs. -/
theorem c5_witness :
    ((parseJob jobBadDatesInput).isOk = false ∧
      ("startDate", "invalid_date") ∈ errList (parseJob jobBadDatesInput)) ∧
    ("endDate", "invalid_date") ∈ errList (parseJob jobBadDatesInput) ∧
    lookupField jobOkNormalized "startDate" = some (.date 1704067200000) ∧
    lookupField jobOkNormalized "endDate" = some (.date 1704153600000) :=
  ⟨c5_dates_coerced.1 jobBadDatesInput "notadate" rfl rfl,
   (c5_dates_coerced.2.1 jobBadDatesInput "2024-13-40" rfl rfl).2,
   c5_dates_coerced.2.2.1 jobOkInput jobOkNormalized "2024-01-01" 1704067200000
     rfl rfl rfl,
   c5_dates_coerced.2.2.2 jobOkInput jobOkNormalized "2024-01-02" 1704153600000
     rfl rfl rfl⟩

/-! ### Claim C6 -/

/-- **C6**: an otherwise-valid User input without `skills` normalizes to
`skills = []`, and an otherwise-valid Job input without `requirements`
normalizes to `requirements = []`. -/
theorem c6_absent_defaults_empty :
    (∀ (i : Input) (r : List (String × Value)), parseUser i = .ok r →
      lookupField i "skills" = none → lookupField r "skills" = some (.arr [])) ∧
    (∀ (i : Input) (r : List (String × Value)), parseJob i = .ok r →
      lookupField i "requirements" = none →
      lookupField r "requirements" = some (.arr [])) := by
  refine ⟨fun i r hok habs => ?_, fun i r hok habs => ?_⟩
  · exact parseObject_ok_lookup insertUserSchema i r "skills" .arrStrDefault (.arr [])
      (by decide) hok (by decide) (by rw [habs]; rfl)
  · exact parseObject_ok_lookup insertJobSchema i r "requirements" .arrStrDefault
      (.arr []) (by decide) hok (by decide) (by rw [habs]; rfl)

/-- Witness for **C6** at concrete inputs. -/
theorem c6_witness :
    lookupField userOkNormalized "skills" = some (.arr []) ∧
    lookupField jobOkNormalized "requirements" = some (.arr []) :=
  ⟨c6_absent_defaults_empty.1 userOkInput userOkNormalized rfl rfl,
   c6_absent_defaults_empty.2 jobOkInput jobOkNormalized rfl rfl⟩

/-! ### Claim C7 -/

/-- **C7**: the Application Creation Validator requires `jobId` and
`workerId` and treats `note` as optional — an input missing only `jobId`
fails with exactly a `jobId` entry, and integer `jobId`/`workerId` with
no `note` are accepted as-is. -/
theorem c7_application_required_fields :
    (∀ (i : Input) (w : Int), lookupField i "jobId" = none →
      lookupField i "workerId" = some (.num w) →
      (lookupField i "note" = none ∨ ∃ s, lookupField i "note" = some (.str s)) →
      parseApplication i = .error [("jobId", "required")]) ∧
    (∀ (i : Input) (j w : Int), lookupField i "jobId" = some (.num j) →
      lookupField i "workerId" = some (.num w) → lookupField i "note" = none →
      parseApplication i = .ok [("jobId", .num j), ("workerId", .num w)]) := by
  constructor
  · intro i w hj hw hnote
    rcases hnote with hn | ⟨s, hn⟩ <;>
      simp [parseApplication, insertApplicationSchema, parseObject, parseField,
        Value.num, Value.str, hj, hw, hn]
  · intro i j w hj hw hn
    simp [parseApplication, insertApplicationSchema, parseObject, parseField,
      Value.num, Value.str, hj, hw, hn]

/-- Witness for **C7** at concrete inputs. -/
theorem c7_witness :
    parseApplication [("workerId", Value.num 2)] = .error [("jobId", "required")] ∧
    parseApplication [("jobId", Value.num 1), ("workerId", Value.num 2)] =
      .ok [("jobId", .num 1), ("workerId", .num 2)] :=
  ⟨c7_application_required_fields.1 [("workerId", Value.num 2)] 2 rfl rfl
     (Or.inl rfl),
   c7_application_required_fields.2 [("jobId", Value.num 1), ("workerId", Value.num 2)]
     1 2 rfl rfl rfl⟩

/-- Looking a key up in an inserted row is looking its column up in the
table. -/
theorem lookupField_map_cols (tbl : List Column) (f : Column → Value) (k : String) :
    lookupField (tbl.map (fun c => (c.name, f c))) k =
      (tbl.find? (fun c => c.name == k)).map f := by
  induction tbl with
  | nil => rfl
  | cons c cs ih =>
    simp only [List.map_cons, lookupField, List.find?_cons]
    cases h : (c.name == k) <;> simp [h, ← ih, lookupField]

/-! ### Claim C8 -/

/-- **C8**: persisting a validated Application record that carries no
`status` or `createdAt` stores `status = "pending"` and `createdAt` equal
to the insertion time; persisting a validated Job record without `status`
stores `status = "open"`. -/
theorem c8_storage_defaults :
    (∀ (nextId nowMs : Int) (r : Input) (row : List (String × Value)),
      lookupField r "status" = none → lookupField r "createdAt" = none →
      insertRow applicationsTable nextId nowMs r = .ok row →
      lookupField row "status" = some (.str "pending") ∧
      lookupField row "createdAt" = some (.date nowMs)) ∧
    (∀ (nextId nowMs : Int) (r : Input) (row : List (String × Value)),
      lookupField r "status" = none →
      insertRow jobsTable nextId nowMs r = .ok row →
      lookupField row "status" = some (.str "open")) := by
  constructor
  · intro nextId nowMs r row hst hca hins
    simp only [insertRow] at hins
    split at hins
    · exact Except.noConfusion hins
    · simp only [Except.ok.injEq] at hins
      subst hins
      rw [lookupField_map_cols, lookupField_map_cols]
      rw [show applicationsTable.find? (fun c => c.name == "status") =
            some ⟨"status", true, false, .val (.str "pending")⟩ from rfl,
          show applicationsTable.find? (fun c => c.name == "createdAt") =
            some ⟨"createdAt", true, false, .now⟩ from rfl]
      constructor <;> simp [columnValue, defaultFor, Value.str, Value.date, hst, hca]
  · intro nextId nowMs r row hst hins
    simp only [insertRow] at hins
    split at hins
    · exact Except.noConfusion hins
    · simp only [Except.ok.injEq] at hins
      subst hins
      rw [lookupField_map_cols,
          show jobsTable.find? (fun c => c.name == "status") =
            some ⟨"status", true, false, .val (.str "open")⟩ from rfl]
      simp [columnValue, defaultFor, Value.str, hst]

/-- The stored row for an Application insert of `{jobId: 1, workerId: 2}`
at time 5 with next serial id 1. -/
def appRowInserted : List (String × Value) :=
  [("id", .num 1), ("jobId", .num 1), ("workerId", .num 2),
   ("status", .str "pending"), ("note", Value.null), ("createdAt", .date 5)]

def jobInsertInput : Input :=
  [("title", .str "T"), ("description", .str "D"), ("location", .str "L"),
   ("startDate", .date 0), ("endDate", .date 86400000),
   ("shiftStartTime", .str "08:00"), ("shiftEndTime", .str "16:00"),
   ("shiftHours", .num 8), ("rate", .num 20), ("employerId", .num 1)]

def jobRowInserted : List (String × Value) :=
  [("id", .num 3), ("title", .str "T"), ("description", .str "D"),
   ("location", .str "L"), ("requirements", Value.null), ("startDate", .date 0),
   ("endDate", .date 86400000), ("shiftStartTime", .str "08:00"),
   ("shiftEndTime", .str "16:00"), ("shiftHours", .num 8), ("rate", .num 20),
   ("employerId", .num 1), ("status", .str "open")]

/-- Witness for **C8** at concrete inserts. -/
theorem c8_witness :
    (lookupField appRowInserted "status" = some (.str "pending") ∧
     lookupField appRowInserted "createdAt" = some (.date 5)) ∧
    lookupField jobRowInserted "status" = some (.str "open") :=
  ⟨c8_storage_defaults.1 1 5 [("jobId", Value.num 1), ("workerId", Value.num 2)]
     appRowInserted rfl rfl rfl,
   c8_storage_defaults.2 3 0 jobInsertInput jobRowInserted rfl rfl⟩

/-- Unfolding `insertUser` once the row insert succeeded. -/
theorem insertUser_ok (nowMs : Int) (s : UsersStore) (r : Input)
    (row : List (String × Value))
    (hrow : insertRow usersTable s.nextId nowMs r = .ok row) :
    insertUser nowMs s r =
      if (s.rows.any fun r0 =>
          lookupField r0 "username" == lookupField row "username") then
        .error "unique_violation"
      else .ok ⟨s.rows ++ [row], s.nextId + 1⟩ := by
  unfold insertUser
  rw [hrow]

/-! ### Claim C9 -/

/-- **C9**: in every reachable users-store state, the stored rows carry
pairwise distinct `username` values, and an insert whose row collides on
`username` with an existing row fails with a uniqueness error (and, the
result being an error, produces no new store state). -/
theorem c9_username_unique :
    ∀ s : UsersStore, ReachableUsers s →
      DistinctUsernames s ∧
      (∀ (nowMs : Int) (r : Input) (row : List (String × Value)),
        insertRow usersTable s.nextId nowMs r = .ok row →
        (s.rows.any (fun r0 =>
          lookupField r0 "username" == lookupField row "username")) = true →
        insertUser nowMs s r = .error "unique_violation") := by
  intro s hs
  constructor
  · induction hs with
    | init => simp [DistinctUsernames]
    | step nowMs r s0 s1 hs0 hok ih =>
      cases hrow : insertRow usersTable s0.nextId nowMs r with
      | error e =>
        unfold insertUser at hok
        rw [hrow] at hok
        exact Except.noConfusion hok
      | ok row =>
        rw [insertUser_ok nowMs s0 r row hrow] at hok
        by_cases hany : (s0.rows.any fun r0 =>
            lookupField r0 "username" == lookupField row "username") = true
        · rw [if_pos hany] at hok
          exact Except.noConfusion hok
        · rw [if_neg hany] at hok
          rw [Bool.not_eq_true] at hany
          have hall := List.any_eq_false.mp hany
          simp only [Except.ok.injEq] at hok
          subst hok
          simp only [DistinctUsernames, List.pairwise_append]
          refine ⟨ih, List.pairwise_singleton _ _, ?_⟩
          intro a ha b hb
          simp only [List.mem_singleton] at hb
          subst hb
          simpa using hall a ha
  · intro nowMs r row hrow hany
    rw [insertUser_ok nowMs s r row hrow, if_pos hany]

def aliceRow : List (String × Value) :=
  [("id", .num 1), ("username", .str "alice"), ("password", .str "x"),
   ("role", .str "worker"), ("fullName", .str "Alice A"),
   ("email", .str "a@x.com"), ("phone", Value.null), ("companyName", Value.null),
   ("companyDescription", Value.null), ("companyLogo", Value.null),
   ("bio", Value.null), ("skills", Value.null), ("hourlyRate", Value.null),
   ("yearsExperience", Value.null), ("verified", .bool false)]

/-- The store after successfully inserting `userOkInput` into the empty
store. -/
def aliceStore : UsersStore := ⟨[aliceRow], 2⟩

def aliceAgainInput : Input :=
  [("username", .str "alice"), ("password", .str "y"), ("role", .str "employer"),
   ("fullName", .str "Alice B"), ("email", .str "b@x.com")]

def aliceAgainRow : List (String × Value) :=
  [("id", .num 2), ("username", .str "alice"), ("password", .str "y"),
   ("role", .str "employer"), ("fullName", .str "Alice B"),
   ("email", .str "b@x.com"), ("phone", Value.null), ("companyName", Value.null),
   ("companyDescription", Value.null), ("companyLogo", Value.null),
   ("bio", Value.null), ("skills", Value.null), ("hourlyRate", Value.null),
   ("yearsExperience", Value.null), ("verified", .bool false)]

/-- Witness for **C9**: a reachable one-user store has distinct usernames,
and re-inserting the same `username` fails with the uniqueness error. -/
theorem c9_witness :
    DistinctUsernames aliceStore ∧
    insertUser 7 aliceStore aliceAgainInput = .error "unique_violation" := by
  have h := c9_username_unique aliceStore
    (.step 0 userOkInput ⟨[], 1⟩ aliceStore ReachableUsers.init rfl)
  exact ⟨h.1, h.2 7 aliceAgainInput aliceAgainRow rfl rfl⟩

/-! ### Claim C10 -/

/-- **C10**: in the stored `users` table shape, `verified` is nullable
with default `false` applying only when the field is omitted at insertion
(an explicit NULL is stored as NULL), and the `skills` and `requirements`
array columns are nullable with no storage-level default (an omitted
value is stored as NULL). -/
theorem c10_nullable_columns :
    (usersTable.find? (fun c => c.name == "verified") =
      some ⟨"verified", false, false, .val (.bool false)⟩) ∧
    (usersTable.find? (fun c => c.name == "skills") =
      some ⟨"skills", false, false, .noDefault⟩) ∧
    (jobsTable.find? (fun c => c.name == "requirements") =
      some ⟨"requirements", false, false, .noDefault⟩) ∧
    (∀ (nextId nowMs : Int) (r : Input) (row : List (String × Value)),
      insertRow usersTable nextId nowMs r = .ok row →
      lookupField r "verified" = some Value.null →
      lookupField row "verified" = some Value.null) ∧
    (∀ (nextId nowMs : Int) (r : Input) (row : List (String × Value)),
      insertRow usersTable nextId nowMs r = .ok row →
      lookupField r "verified" = none →
      lookupField row "verified" = some (.bool false)) ∧
    (∀ (nextId nowMs : Int) (r : Input) (row : List (String × Value)),
      insertRow usersTable nextId nowMs r = .ok row →
      lookupField r "skills" = none →
      lookupField row "skills" = some Value.null) := by
  refine ⟨rfl, rfl, rfl, ?_, ?_, ?_⟩ <;>
  · intro nextId nowMs r row hins hf
    simp only [insertRow] at hins
    split at hins
    · exact Except.noConfusion hins
    · simp only [Except.ok.injEq] at hins
      subst hins
      rw [lookupField_map_cols]
      first
        | rw [show usersTable.find? (fun c => c.name == "verified") =
              some ⟨"verified", false, false, .val (.bool false)⟩ from rfl]
        | rw [show usersTable.find? (fun c => c.name == "skills") =
              some ⟨"skills", false, false, .noDefault⟩ from rfl]
      simp [columnValue, defaultFor, Value.null, Value.bool, hf]

def userNullVerifiedInput : Input := userOkInput ++ [("verified", Value.null)]

def userNullVerifiedRow : List (String × Value) :=
  [("id", .num 1), ("username", .str "alice"), ("password", .str "x"),
   ("role", .str "worker"), ("fullName", .str "Alice A"),
   ("email", .str "a@x.com"), ("phone", Value.null), ("companyName", Value.null),
   ("companyDescription", Value.null), ("companyLogo", Value.null),
   ("bio", Value.null), ("skills", Value.null), ("hourlyRate", Value.null),
   ("yearsExperience", Value.null), ("verified", Value.null)]

/-- Witness for **C10** at concrete inserts: an explicit NULL `verified`
is stored as NULL, an omitted one defaults to `false`, and an omitted
`skills` is stored as NULL. -/
theorem c10_witness :
    lookupField userNullVerifiedRow "verified" = some Value.null ∧
    lookupField aliceRow "verified" = some (.bool false) ∧
    lookupField aliceRow "skills" = some Value.null :=
  ⟨c10_nullable_columns.2.2.2.1 1 0 userNullVerifiedInput userNullVerifiedRow
     rfl rfl,
   c10_nullable_columns.2.2.2.2.1 1 0 userOkInput aliceRow rfl rfl,
   c10_nullable_columns.2.2.2.2.2 1 0 userOkInput aliceRow rfl rfl⟩

end SharedSchema
